import Mathlib

/-!
Shallow embedding of the node bindings of the tokenizers package: the
`Encoding` data model with its pad/truncate algorithms, vocabulary
insertion, the stage-setter state machine, batch encoding, the caching
`Encoding` wrapper class of `implementations/encoding`, and the
`BertWordPieceTokenizer.fromOptions` constructor, together with theorems
about the documented properties.

The native Rust implementations behind the TypeScript declarations
(`bindings/tokenizer`, `bindings/raw-encoding`) are not part of the
TypeScript sources; every definition standing in for such a native
operation carries a doc comment starting with "Modelled from the spec:"
and follows the specification text. Everything else is translated
directly from the TypeScript sources.
-/

namespace Tokenizers

/-- One tokenized sequence: the six parallel arrays of an encoding
(`ids`, `tokens`, `typeIds`, `offsets`, `specialTokensMask`,
`attentionMask`) exposed by the `Encoding` declarations
(`getIds`, `getTokens`, `getTypeIds`, `getOffsets`,
`getSpecialTokensMask`, `getAttentionMask`). -/
structure EncodingData where
  ids : List Nat
  tokens : List String
  typeIds : List Nat
  offsets : List (Nat × Nat)
  specialTokensMask : List Nat
  attentionMask : List Nat
deriving DecidableEq

/-- Current length of the encoding (the value of `rawEncoding.getLength()`):
the number of token positions, read off the `ids` array. -/
def EncodingData.currentLength (d : EncodingData) : Nat :=
  d.ids.length

/-- The parallel-array invariant of the spec (section 3): all six arrays
have one entry per token position, so their lengths agree. -/
def EncodingData.Aligned (d : EncodingData) : Prop :=
  d.tokens.length = d.ids.length ∧
  d.typeIds.length = d.ids.length ∧
  d.offsets.length = d.ids.length ∧
  d.specialTokensMask.length = d.ids.length ∧
  d.attentionMask.length = d.ids.length

/-- Padding direction of `PaddingOptions.direction`; the default is right. -/
inductive PadDirection
  | left
  | right
deriving DecidableEq

/-- The `PaddingOptions` interface of `bindings/tokenizer`: direction
(default right), padId (default 0), padTypeId (default 0), padToken
(default "[PAD]"). -/
structure PaddingOptions where
  direction : PadDirection := PadDirection.right
  padId : Nat := 0
  padTypeId : Nat := 0
  padToken : String := "[PAD]"
deriving DecidableEq

/-- Modelled from the spec: the native `RawEncoding.pad` (only its
declaration is in the TypeScript sources). Per section 4.2, `pad` inserts
`length - currentLength` copies of the pad values at the start
(direction left) or the end (direction right) of every parallel array;
inserted attentionMask entries are 0, inserted specialTokensMask entries
are 1, inserted offsets are (0, 0); it is a no-op when
`currentLength >= length`. -/
def EncodingData.pad (d : EncodingData) (len : Nat) (opts : PaddingOptions) :
    EncodingData :=
  if len ≤ d.currentLength then d
  else
    let n := len - d.currentLength
    match opts.direction with
    | PadDirection.right =>
      { ids := d.ids ++ List.replicate n opts.padId
        tokens := d.tokens ++ List.replicate n opts.padToken
        typeIds := d.typeIds ++ List.replicate n opts.padTypeId
        offsets := d.offsets ++ List.replicate n (0, 0)
        specialTokensMask := d.specialTokensMask ++ List.replicate n 1
        attentionMask := d.attentionMask ++ List.replicate n 0 }
    | PadDirection.left =>
      { ids := List.replicate n opts.padId ++ d.ids
        tokens := List.replicate n opts.padToken ++ d.tokens
        typeIds := List.replicate n opts.padTypeId ++ d.typeIds
        offsets := List.replicate n (0, 0) ++ d.offsets
        specialTokensMask := List.replicate n 1 ++ d.specialTokensMask
        attentionMask := List.replicate n 0 ++ d.attentionMask }

/-- Modelled from the spec: one truncation step of the native
`RawEncoding.truncate` (only its declaration is in the TypeScript
sources). Per section 4.2: a no-op when `currentLength <= length`;
otherwise every parallel array keeps its first `length` entries and the
remainder moves into a new overflow segment, with the last `stride`
entries of the kept portion duplicated at the front of that segment.
The result is the kept portion paired with the optional new overflow
segment. -/
def EncodingData.truncateStep (d : EncodingData) (len stride : Nat) :
    EncodingData × Option EncodingData :=
  if d.currentLength ≤ len then (d, none)
  else
    ({ ids := d.ids.take len
       tokens := d.tokens.take len
       typeIds := d.typeIds.take len
       offsets := d.offsets.take len
       specialTokensMask := d.specialTokensMask.take len
       attentionMask := d.attentionMask.take len },
     some
       { ids := (d.ids.take len).drop (len - stride) ++ d.ids.drop len
         tokens := (d.tokens.take len).drop (len - stride) ++ d.tokens.drop len
         typeIds := (d.typeIds.take len).drop (len - stride) ++ d.typeIds.drop len
         offsets := (d.offsets.take len).drop (len - stride) ++ d.offsets.drop len
         specialTokensMask :=
           (d.specialTokensMask.take len).drop (len - stride) ++
             d.specialTokensMask.drop len
         attentionMask :=
           (d.attentionMask.take len).drop (len - stride) ++
             d.attentionMask.drop len })

/-- An encoding: the primary content together with its owned, ordered
overflow chain (spec section 3; `getOverflowing` in the bindings). Per
the design note of section 9, the chain is a flat forward-owned list on
the parent. -/
structure Encoding where
  primary : EncodingData
  overflowing : List EncodingData
deriving DecidableEq

/-- Spec section 3 invariant for a whole encoding: the primary content and
every overflow segment satisfy the parallel-array invariant. -/
def Encoding.WellFormed (e : Encoding) : Prop :=
  e.primary.Aligned ∧ ∀ d ∈ e.overflowing, d.Aligned

/-- Modelled from the spec: the native `RawEncoding.pad` pads the primary
content; per section 4.2 padding targets only the primary encoding and
does not cascade into the overflow segments. -/
def Encoding.pad (e : Encoding) (len : Nat) (opts : PaddingOptions) : Encoding :=
  { primary := e.primary.pad len opts
    overflowing := e.overflowing }

/-- Modelled from the spec: the native `RawEncoding.truncate`
(section 4.2). The primary content is truncated; every pre-existing
overflow segment is truncated with the same rule; the newly created
overflow segments are prepended to the existing (now truncated) chain,
ordered as: new overflow from the primary first, then the new overflow
from each prior overflow segment, then the truncated prior segments. -/
def Encoding.truncate (e : Encoding) (len stride : Nat) : Encoding :=
  let p := e.primary.truncateStep len stride
  let steps := e.overflowing.map (fun d => d.truncateStep len stride)
  { primary := p.1
    overflowing := (p.2 :: steps.map Prod.snd).filterMap id ++ steps.map Prod.fst }

/-- The ids of the primary content followed by the ids of the overflow
segments, in chain order. -/
def Encoding.flatIds (e : Encoding) : List Nat :=
  e.primary.ids ++ e.overflowing.foldr (fun d acc => d.ids ++ acc) []

/-- The tokens of the primary content followed by the tokens of the
overflow segments, in chain order. -/
def Encoding.flatTokens (e : Encoding) : List String :=
  e.primary.tokens ++ e.overflowing.foldr (fun d acc => d.tokens ++ acc) []

/-- The typeIds of the primary content followed by those of the overflow
segments, in chain order. -/
def Encoding.flatTypeIds (e : Encoding) : List Nat :=
  e.primary.typeIds ++ e.overflowing.foldr (fun d acc => d.typeIds ++ acc) []

/-- The offsets of the primary content followed by those of the overflow
segments, in chain order. -/
def Encoding.flatOffsets (e : Encoding) : List (Nat × Nat) :=
  e.primary.offsets ++ e.overflowing.foldr (fun d acc => d.offsets ++ acc) []

/-- The specialTokensMask of the primary content followed by those of the
overflow segments, in chain order. -/
def Encoding.flatSpecialTokensMask (e : Encoding) : List Nat :=
  e.primary.specialTokensMask ++
    e.overflowing.foldr (fun d acc => d.specialTokensMask ++ acc) []

/-- The attentionMask of the primary content followed by those of the
overflow segments, in chain order. -/
def Encoding.flatAttentionMask (e : Encoding) : List Nat :=
  e.primary.attentionMask ++
    e.overflowing.foldr (fun d acc => d.attentionMask ++ acc) []

/-- Modelled from the spec: the vocabulary behind the native
`Tokenizer.addTokens` (only its declaration is in the TypeScript
sources). Per section 3 the vocabulary is a bijective token-to-id map
whose ids grow monotonically from the current maximum, so it is modelled
as the ordered list of inserted tokens, a token id being its position.
The optional single-word flag of an `addTokens` entry affects only
matching, not membership or counting, so entries are modelled as plain
strings. Per section 4.1, `addTokens` inserts each token not already
present and returns how many were actually added; duplicates are skipped
and not counted. This is the insertion step for one token: a token
already present leaves the vocabulary and the count unchanged, a new
token is appended (receiving the next id) and counted. -/
def addTokensStep (acc : List String × Nat) (t : String) : List String × Nat :=
  if t ∈ acc.1 then acc else (acc.1 ++ [t], acc.2 + 1)

/-- Modelled from the spec: see `addTokensStep`; `addTokens` runs the
insertion step over the given tokens, starting from the current
vocabulary and a count of 0, and returns the extended vocabulary with
the number of tokens actually added. -/
def addTokens (vocab : List String) (tokens : List String) : List String × Nat :=
  tokens.foldl addTokensStep (vocab, 0)

/-- Modelled from the spec: the native `Tokenizer.getVocabSize` (only its
declaration is in the TypeScript sources): the size of the vocabulary. -/
def getVocabSize (vocab : List String) : Nat :=
  vocab.length

/-- The pipeline stage replaced by one of the five setters of the
`Tokenizer` class (`setModel`, `setNormalizer`, `setPreTokenizer`,
`setPostProcessor`, `setDecoder`). -/
inductive StageSlot
  | model
  | normalizer
  | preTokenizer
  | postProcessor
  | decoder
deriving DecidableEq

/-- The two failure conditions documented on the stage setters: busy (a
task is running) and alreadyBound (the stage instance is already used in
another tokenizer). -/
inductive SetStageError
  | busy
  | alreadyBound
deriving DecidableEq

/-- Modelled from the spec: the state shared by all tokenizers and stage
instances, both identified by numbers. `runningTasks t` is the live task
count of tokenizer `t` (`Tokenizer.runningTasks()`); `stageOwner s` is
the tokenizer owning stage instance `s`, if any (the single-owner
binding of sections 3 and 9); `boundStage t sl` is the stage instance
tokenizer `t` currently holds in slot `sl`. -/
structure TokenizerWorld where
  runningTasks : Nat → Nat
  stageOwner : Nat → Option Nat
  boundStage : Nat → StageSlot → Option Nat

/-- Binding a stage instance to a tokenizer: the instance becomes owned by
the tokenizer and occupies the given slot. -/
def TokenizerWorld.bindStage (w : TokenizerWorld) (tok : Nat) (sl : StageSlot)
    (stage : Nat) : TokenizerWorld :=
  { w with
    stageOwner := fun s => if s = stage then some tok else w.stageOwner s
    boundStage := fun t s =>
      if t = tok ∧ s = sl then some stage else w.boundStage t s }

/-- Modelled from the spec: the native setters `setModel`, `setNormalizer`,
`setPreTokenizer`, `setPostProcessor`, `setDecoder` (only their
declarations, with throws-if-task-running and
throws-if-already-used-in-another-tokenizer comments, are in the
TypeScript sources). Per section 4.1 a setter fails busy when the
tokenizer has running tasks, fails alreadyBound when the supplied stage
instance is owned by a different tokenizer, and otherwise binds the
stage. -/
def setStage (w : TokenizerWorld) (tok : Nat) (sl : StageSlot) (stage : Nat) :
    Except SetStageError TokenizerWorld :=
  if w.runningTasks tok > 0 then Except.error SetStageError.busy
  else
    match w.stageOwner stage with
    | some owner =>
      if owner = tok then Except.ok (w.bindStage tok sl stage)
      else Except.error SetStageError.alreadyBound
    | none => Except.ok (w.bindStage tok sl stage)

/-- The getters `getModel`, `getNormalizer`, `getPreTokenizer`,
`getPostProcessor`, `getDecoder`: declared without any throws comment in
the TypeScript sources, they return the bound stage (if any) and never
fail. -/
def getStage (w : TokenizerWorld) (tok : Nat) (sl : StageSlot) :
    Except SetStageError (Option Nat) :=
  Except.ok (w.boundStage tok sl)

/-- Modelled from the spec: the state machine of section 4.1 — every
encode, decode or train operation decrements the live task count when it
completes; once all outstanding tasks of tokenizer `tok` have completed
its count is 0 and nothing else has changed. -/
def completeAllTasks (w : TokenizerWorld) (tok : Nat) : TokenizerWorld :=
  { w with runningTasks := fun t => if t = tok then 0 else w.runningTasks t }

/-- One element of an `encodeBatch` input list, per the declaration
`encodeBatch(sequences: (string | [string, string])[], ...)`: a bare
string (a single sequence) or a 2-tuple of strings (a pair). -/
inductive EncodeInput
  | single (sequence : String)
  | pair (first second : String)
deriving DecidableEq

/-- Modelled from the spec: how `encodeBatch` dispatches one element to
`encode` (section 4.1): a bare string is encoded as a single sequence
with no pair, a 2-tuple as a pair. The underlying `encode` operation is
kept abstract as `enc`. -/
def encodeOne (enc : String → Option String → Except String Encoding) :
    EncodeInput → Except String Encoding
  | EncodeInput.single s => enc s none
  | EncodeInput.pair a b => enc a (some b)

/-- Modelled from the spec: the native `Tokenizer.encodeBatch` (only its
declaration is in the TypeScript sources). Per sections 4.1 and 7 it
applies `encode` to each element in input order, and the failure of any
one element fails the whole call with no partial results. -/
def encodeBatch (enc : String → Option String → Except String Encoding) :
    List EncodeInput → Except String (List Encoding)
  | [] => Except.ok []
  | x :: xs =>
    match encodeOne enc x with
    | Except.error msg => Except.error msg
    | Except.ok e =>
      match encodeBatch enc xs with
      | Except.error msg => Except.error msg
      | Except.ok es => Except.ok (e :: es)

/-- The value of the native raw getter `getIds`. -/
def Encoding.getIds (e : Encoding) : List Nat :=
  e.primary.ids

/-- The value of the native raw getter `getTokens`. -/
def Encoding.getTokens (e : Encoding) : List String :=
  e.primary.tokens

/-- The value of the native raw getter `getTypeIds`. -/
def Encoding.getTypeIds (e : Encoding) : List Nat :=
  e.primary.typeIds

/-- The value of the native raw getter `getOffsets`. -/
def Encoding.getOffsets (e : Encoding) : List (Nat × Nat) :=
  e.primary.offsets

/-- The value of the native raw getter `getSpecialTokensMask`. -/
def Encoding.getSpecialTokensMask (e : Encoding) : List Nat :=
  e.primary.specialTokensMask

/-- The value of the native raw getter `getAttentionMask`. -/
def Encoding.getAttentionMask (e : Encoding) : List Nat :=
  e.primary.attentionMask

/-- The value of the native raw getter `getLength`: the number of token
positions. -/
def Encoding.getLength (e : Encoding) : Nat :=
  e.primary.ids.length

/-- The value of the native raw getter `getOverflowing`: the overflow
segments in chain order. -/
def Encoding.getOverflowing (e : Encoding) : List EncodingData :=
  e.overflowing

/-- The `Encoding` wrapper class of `implementations/encoding`: a raw
encoding plus one optional cached copy per exposed view, mirroring the
private fields `_attentionMask`, `_ids`, `_length`, `_offsets`,
`_overflowing`, `_specialTokensMask`, `_tokens`, `_typeIds`. The
wrapper objects built around each raw overflow segment carry no state of
their own, so the cached overflowing view is modelled as the list of raw
segments. -/
structure CachedEncoding where
  raw : Encoding
  cachedAttentionMask : Option (List Nat) := none
  cachedIds : Option (List Nat) := none
  cachedLength : Option Nat := none
  cachedOffsets : Option (List (Nat × Nat)) := none
  cachedOverflowing : Option (List EncodingData) := none
  cachedSpecialTokensMask : Option (List Nat) := none
  cachedTokens : Option (List String) := none
  cachedTypeIds : Option (List Nat) := none
deriving DecidableEq

/-- The `attentionMask` getter of the wrapper: returns the cached value
when present, otherwise reads `rawEncoding.getAttentionMask()` and
caches it. The result pairs the returned value with the updated
wrapper. -/
def CachedEncoding.attentionMask (w : CachedEncoding) :
    List Nat × CachedEncoding :=
  match w.cachedAttentionMask with
  | some v => (v, w)
  | none =>
    (w.raw.getAttentionMask,
     { w with cachedAttentionMask := some w.raw.getAttentionMask })

/-- The `ids` getter of the wrapper: cached value if present, otherwise
`rawEncoding.getIds()`, cached. -/
def CachedEncoding.ids (w : CachedEncoding) : List Nat × CachedEncoding :=
  match w.cachedIds with
  | some v => (v, w)
  | none => (w.raw.getIds, { w with cachedIds := some w.raw.getIds })

/-- The `length` getter of the wrapper: cached value if present, otherwise
`rawEncoding.getLength()`, cached. -/
def CachedEncoding.length (w : CachedEncoding) : Nat × CachedEncoding :=
  match w.cachedLength with
  | some v => (v, w)
  | none => (w.raw.getLength, { w with cachedLength := some w.raw.getLength })

/-- The `offsets` getter of the wrapper: cached value if present, otherwise
`rawEncoding.getOffsets()`, cached. -/
def CachedEncoding.offsets (w : CachedEncoding) :
    List (Nat × Nat) × CachedEncoding :=
  match w.cachedOffsets with
  | some v => (v, w)
  | none => (w.raw.getOffsets, { w with cachedOffsets := some w.raw.getOffsets })

/-- The `overflowing` getter of the wrapper: cached value if present,
otherwise `rawEncoding.getOverflowing()` wrapped per segment, cached. -/
def CachedEncoding.overflowing (w : CachedEncoding) :
    List EncodingData × CachedEncoding :=
  match w.cachedOverflowing with
  | some v => (v, w)
  | none =>
    (w.raw.getOverflowing,
     { w with cachedOverflowing := some w.raw.getOverflowing })

/-- The `specialTokensMask` getter of the wrapper: cached value if present,
otherwise `rawEncoding.getSpecialTokensMask()`, cached. -/
def CachedEncoding.specialTokensMask (w : CachedEncoding) :
    List Nat × CachedEncoding :=
  match w.cachedSpecialTokensMask with
  | some v => (v, w)
  | none =>
    (w.raw.getSpecialTokensMask,
     { w with cachedSpecialTokensMask := some w.raw.getSpecialTokensMask })

/-- The `tokens` getter of the wrapper: cached value if present, otherwise
`rawEncoding.getTokens()`, cached. -/
def CachedEncoding.tokens (w : CachedEncoding) : List String × CachedEncoding :=
  match w.cachedTokens with
  | some v => (v, w)
  | none => (w.raw.getTokens, { w with cachedTokens := some w.raw.getTokens })

/-- The `typeIds` getter of the wrapper: cached value if present, otherwise
`rawEncoding.getTypeIds()`, cached. -/
def CachedEncoding.typeIds (w : CachedEncoding) : List Nat × CachedEncoding :=
  match w.cachedTypeIds with
  | some v => (v, w)
  | none => (w.raw.getTypeIds, { w with cachedTypeIds := some w.raw.getTypeIds })

/-- `resetInternalProperties` of the wrapper: deletes every cached
property (`_attentionMask`, `_ids`, `_length`, `_offsets`,
`_overflowing`, `_specialTokensMask`, `_tokens`, `_typeIds`). -/
def CachedEncoding.resetInternalProperties (w : CachedEncoding) :
    CachedEncoding :=
  { raw := w.raw }

/-- The `pad` method of the wrapper: `this.rawEncoding.pad(length,
options)` followed by `this.resetInternalProperties()`. -/
def CachedEncoding.pad (w : CachedEncoding) (len : Nat) (opts : PaddingOptions) :
    CachedEncoding :=
  CachedEncoding.resetInternalProperties { w with raw := w.raw.pad len opts }

/-- The `truncate` method of the wrapper: `this.rawEncoding.truncate(length,
stride)` followed by `this.resetInternalProperties()`. -/
def CachedEncoding.truncate (w : CachedEncoding) (len stride : Nat) :
    CachedEncoding :=
  CachedEncoding.resetInternalProperties { w with raw := w.raw.truncate len stride }

/-- The options of `BertWordPieceTokenizer.fromOptions` that steer the
control flow modelled here; defaults are those of
`defaultBertOptions`. `hasVocabFile` stands for the presence of the
optional `vocabFile` option. The normalization, pre-tokenization and
decoder options do not affect the modelled control flow. -/
structure BertWordPieceOptions where
  addSpecialTokens : Bool := true
  clsToken : String := "[CLS]"
  sepToken : String := "[SEP]"
  hasVocabFile : Bool := false
deriving DecidableEq

/-- The tokenizer produced by `BertWordPieceTokenizer.fromOptions`, reduced
to the datum the error-handling claims depend on: the configured
post-processor, which `bertProcessing` builds from the already resolved
(sepToken, sepTokenId) and (clsToken, clsTokenId) pairs. -/
structure BertTokenizer where
  postProcessor : Option ((String × Nat) × (String × Nat))
deriving DecidableEq

/-- `BertWordPieceTokenizer.fromOptions`, translated from
`implementations/tokenizers`: when a vocab file is given and
addSpecialTokens is set, `tokenToId(sepToken)` and `tokenToId(clsToken)`
are looked up, and an absent result throws the corresponding
not-found-in-the-vocabulary error before any post-processor is
configured; otherwise `bertProcessing` is installed with the resolved
ids. The vocabulary lookup of the underlying model is the function
argument `tokenToId`. -/
def BertWordPieceTokenizer.fromOptions (tokenToId : String → Option Nat)
    (opts : BertWordPieceOptions) : Except String BertTokenizer :=
  if opts.hasVocabFile && opts.addSpecialTokens then
    match tokenToId opts.sepToken with
    | none => Except.error "sepToken not found in the vocabulary"
    | some sepId =>
      match tokenToId opts.clsToken with
      | none => Except.error "clsToken not found in the vocabulary"
      | some clsId =>
        Except.ok
          { postProcessor :=
              if opts.addSpecialTokens then
                some ((opts.sepToken, sepId), (opts.clsToken, clsId))
              else none }
  else Except.ok { postProcessor := none }

/-- The encoding of the end-to-end example of spec section 8: ids
[1, 3, 4, 2] for tokens [CLS] he llo [SEP]. -/
def exampleData : EncodingData :=
  { ids := [1, 3, 4, 2]
    tokens := ["[CLS]", "he", "llo", "[SEP]"]
    typeIds := [0, 0, 0, 0]
    offsets := [(0, 0), (0, 2), (2, 5), (0, 0)]
    specialTokensMask := [1, 0, 0, 1]
    attentionMask := [1, 1, 1, 1] }

/-- The example encoding with no overflow chain, as produced by a fresh
encode call. -/
def exampleEncoding : Encoding :=
  { primary := exampleData
    overflowing := [] }

/-- A three-token encoding content used as primary content in
counterexamples. -/
def abcData : EncodingData :=
  { ids := [1, 2, 3]
    tokens := ["a", "b", "c"]
    typeIds := [0, 0, 0]
    offsets := [(0, 1), (1, 2), (2, 3)]
    specialTokensMask := [0, 0, 0]
    attentionMask := [1, 1, 1] }

/-- A three-token encoding content used as a pre-existing overflow segment
in counterexamples. -/
def defData : EncodingData :=
  { ids := [4, 5, 6]
    tokens := ["d", "e", "f"]
    typeIds := [0, 0, 0]
    offsets := [(3, 4), (4, 5), (5, 6)]
    specialTokensMask := [0, 0, 0]
    attentionMask := [1, 1, 1] }

/-- An encoding that already carries one overflow segment before
truncation. -/
def chainedEncoding : Encoding :=
  { primary := abcData
    overflowing := [defData] }

/-- A world with one outstanding task on every tokenizer and no stage
bound anywhere. -/
def busyWorld : TokenizerWorld :=
  { runningTasks := fun _ => 1
    stageOwner := fun _ => none
    boundStage := fun _ _ => none }

/-- An idle world in which every stage instance is owned by tokenizer 1. -/
def boundWorld : TokenizerWorld :=
  { runningTasks := fun _ => 0
    stageOwner := fun _ => some 1
    boundStage := fun _ _ => none }

/-- A concrete encode operation used in witnesses: it fails on the
sequence "bad" and succeeds with the example encoding otherwise. -/
def encWitness : String → Option String → Except String Encoding :=
  fun s _ =>
    if s = "bad" then Except.error "boom" else Except.ok exampleEncoding

theorem EncodingData.Aligned.pad {d : EncodingData} (h : d.Aligned)
    (len : Nat) (opts : PaddingOptions) : (d.pad len opts).Aligned := by
  obtain ⟨h1, h2, h3, h4, h5⟩ := h
  obtain ⟨dir, pid, ptid, ptok⟩ := opts
  unfold EncodingData.pad
  split
  · exact ⟨h1, h2, h3, h4, h5⟩
  · cases dir <;>
      simp [EncodingData.Aligned, EncodingData.currentLength, h1, h2, h3, h4, h5]

theorem EncodingData.Aligned.truncateStep_fst {d : EncodingData} (h : d.Aligned)
    (len stride : Nat) : (d.truncateStep len stride).1.Aligned := by
  obtain ⟨h1, h2, h3, h4, h5⟩ := h
  unfold EncodingData.truncateStep
  split
  · exact ⟨h1, h2, h3, h4, h5⟩
  · simp [EncodingData.Aligned, List.length_take, h1, h2, h3, h4, h5]

theorem EncodingData.Aligned.truncateStep_snd {d : EncodingData} (h : d.Aligned)
    (len stride : Nat) (o : EncodingData)
    (ho : (d.truncateStep len stride).2 = some o) : o.Aligned := by
  obtain ⟨h1, h2, h3, h4, h5⟩ := h
  unfold EncodingData.truncateStep at ho
  split at ho
  · exact absurd ho (by simp)
  · have he := Option.some.inj ho
    subst he
    simp [EncodingData.Aligned, List.length_append, List.length_drop,
      List.length_take, h1, h2, h3, h4, h5]

/-- C1: for every Encoding whose six parallel arrays (ids, tokens,
typeIds, offsets, specialTokensMask, attentionMask) have equal length in
the primary content and in every overflow segment, both a pad call and a
truncate call preserve that equality, so the invariant holds before and
after the call. -/
theorem pad_truncate_preserve_parallel_arrays (e : Encoding) (len stride : Nat)
    (opts : PaddingOptions) (h : e.WellFormed) :
    (e.pad len opts).WellFormed ∧ (e.truncate len stride).WellFormed := by
  obtain ⟨hp, hov⟩ := h
  refine ⟨⟨hp.pad len opts, hov⟩, hp.truncateStep_fst len stride, ?_⟩
  intro d hd
  simp only [Encoding.truncate, List.mem_append, List.mem_filterMap,
    List.mem_cons, List.mem_map, id] at hd
  rcases hd with ⟨a, ha | ⟨x, hx, hax⟩, ha2⟩ | ⟨x, hx, hxd⟩
  · rw [ha] at ha2
    exact hp.truncateStep_snd len stride d ha2
  · obtain ⟨y, hy, rfl⟩ := hx
    rw [← hax] at ha2
    exact (hov y hy).truncateStep_snd len stride d ha2
  · obtain ⟨y, hy, rfl⟩ := hx
    rw [← hxd]
    exact (hov y hy).truncateStep_fst len stride

/-- C1 witness: the section 8 example encoding is well formed, and so are
the results of padding it to length 6 and truncating it at length 2. -/
theorem pad_truncate_preserve_parallel_arrays_witness :
    exampleEncoding.WellFormed ∧ (exampleEncoding.pad 6 {}).WellFormed ∧
      (exampleEncoding.truncate 2 0).WellFormed := by
  have hwf : exampleEncoding.WellFormed :=
    ⟨⟨rfl, rfl, rfl, rfl, rfl⟩, by simp [exampleEncoding]⟩
  exact ⟨hwf,
    (pad_truncate_preserve_parallel_arrays exampleEncoding 6 0 {} hwf).1,
    (pad_truncate_preserve_parallel_arrays exampleEncoding 2 0 {} hwf).2⟩

theorem take_drop_reassemble {α : Type} (xs : List α) (n : Nat) :
    xs.take n ++ ((xs.take n).drop n ++ xs.drop n) = xs := by
  rw [List.drop_eq_nil_of_le, List.nil_append, List.take_append_drop]
  rw [List.length_take]
  exact Nat.min_le_left n xs.length

/-- C2 counterexample: on an Encoding that already carries an overflow
segment (primary tokens [a, b, c], pre-existing overflow [d, e, f]),
truncate(2, stride=0) yields the chain order new-from-primary,
new-from-prior, truncated-prior, so concatenating the primary tokens
with the tokens of all overflow segments gives [a, b, c, f, d, e],
which is neither the original primary token sequence nor the original
full (primary plus overflow) token sequence. -/
theorem truncate_stride_zero_reconstructs_counterexample :
    (chainedEncoding.truncate 2 0).flatTokens ≠ chainedEncoding.primary.tokens ∧
    (chainedEncoding.truncate 2 0).flatTokens ≠ chainedEncoding.flatTokens := by
  decide

/-- C2 (amended): for every Encoding with no pre-existing overflow
segments (as produced by a fresh encode call), after truncate(length)
with stride=0 the concatenation of the primary content with all overflow
segments, in order, reconstructs exactly the original content of each of
the six parallel arrays. -/
theorem truncate_stride_zero_reconstructs (e : Encoding) (len : Nat)
    (h : e.overflowing = []) :
    (e.truncate len 0).flatIds = e.primary.ids ∧
    (e.truncate len 0).flatTokens = e.primary.tokens ∧
    (e.truncate len 0).flatTypeIds = e.primary.typeIds ∧
    (e.truncate len 0).flatOffsets = e.primary.offsets ∧
    (e.truncate len 0).flatSpecialTokensMask = e.primary.specialTokensMask ∧
    (e.truncate len 0).flatAttentionMask = e.primary.attentionMask := by
  obtain ⟨p, ov⟩ := e
  simp only at h
  subst h
  by_cases hlen : p.currentLength ≤ len
  · simp [Encoding.truncate, EncodingData.truncateStep, hlen, Encoding.flatIds,
      Encoding.flatTokens, Encoding.flatTypeIds, Encoding.flatOffsets,
      Encoding.flatSpecialTokensMask, Encoding.flatAttentionMask]
  · simp [Encoding.truncate, EncodingData.truncateStep, hlen, Encoding.flatIds,
      Encoding.flatTokens, Encoding.flatTypeIds, Encoding.flatOffsets,
      Encoding.flatSpecialTokensMask, Encoding.flatAttentionMask,
      take_drop_reassemble]

/-- C2 witness: the example encoding has no overflow, and truncating it at
length 2 with stride 0 reassembles its ids. -/
theorem truncate_stride_zero_reconstructs_witness :
    exampleEncoding.overflowing = [] ∧
      (exampleEncoding.truncate 2 0).flatIds = exampleEncoding.primary.ids :=
  ⟨rfl, (truncate_stride_zero_reconstructs exampleEncoding 2 rfl).1⟩

/-- C3: for every Encoding, truncating at a length strictly below the
current length with a positive stride at most the length keeps the first
length entries as the primary ids, and the first (newly created)
overflow segment starts with the last stride entries of the kept portion
followed by the removed remainder. -/
theorem truncate_stride_duplicates_kept_tail (e : Encoding) (len stride : Nat)
    (hlen : len < e.primary.currentLength) (_hpos : 0 < stride)
    (_hstride : stride ≤ len) :
    (e.truncate len stride).primary.ids = e.primary.ids.take len ∧
    Option.map EncodingData.ids ((e.truncate len stride).overflowing.head?) =
      some ((e.primary.ids.take len).drop (len - stride) ++
        e.primary.ids.drop len) := by
  have hguard : ¬ e.primary.currentLength ≤ len := Nat.not_le_of_lt hlen
  constructor
  · simp [Encoding.truncate, EncodingData.truncateStep, hguard]
  · simp [Encoding.truncate, EncodingData.truncateStep, hguard,
      List.filterMap_cons]

/-- C3 witness: truncate(2, stride=1) on the example encoding with ids
[1, 3, 4, 2] yields primary ids [1, 3] and a first overflow segment with
ids [3, 4, 2]. -/
theorem truncate_stride_duplicates_kept_tail_witness :
    2 < exampleEncoding.primary.currentLength ∧ (0 : Nat) < 1 ∧ (1 : Nat) ≤ 2 ∧
    (exampleEncoding.truncate 2 1).primary.ids = [1, 3] ∧
    Option.map EncodingData.ids ((exampleEncoding.truncate 2 1).overflowing.head?) =
      some [3, 4, 2] := by
  have h := truncate_stride_duplicates_kept_tail exampleEncoding 2 1
    (by decide) (by decide) (by decide)
  exact ⟨by decide, by decide, by decide, h.1.trans (by decide),
    h.2.trans (by decide)⟩

theorem addTokensStep_foldl_length (ts : List String) (v : List String) (c : Nat) :
    (ts.foldl addTokensStep (v, c)).1.length + c =
      v.length + (ts.foldl addTokensStep (v, c)).2 := by
  induction ts generalizing v c with
  | nil => simp
  | cons t ts ih =>
    by_cases hmem : t ∈ v
    · simpa [List.foldl_cons, addTokensStep, hmem] using ih v c
    · have h := ih (v ++ [t]) (c + 1)
      simp only [List.foldl_cons, addTokensStep, hmem, if_false,
        List.length_append, List.length_singleton] at h ⊢
      omega

theorem addTokensStep_foldl_mem (ts : List String) (v : List String) (c : Nat)
    (t : String) :
    t ∈ (ts.foldl addTokensStep (v, c)).1 ↔ t ∈ v ∨ t ∈ ts := by
  induction ts generalizing v c with
  | nil => simp
  | cons s ts ih =>
    by_cases hmem : s ∈ v
    · rw [List.foldl_cons]
      simp only [addTokensStep, hmem, if_true, ih, List.mem_cons]
      constructor
      · rintro (h | h)
        · exact Or.inl h
        · exact Or.inr (Or.inr h)
      · rintro (h | rfl | h)
        · exact Or.inl h
        · exact Or.inl hmem
        · exact Or.inr h
    · rw [List.foldl_cons]
      simp only [addTokensStep, hmem, if_false, ih, List.mem_append,
        List.mem_singleton, List.mem_cons]
      tauto

theorem addTokensStep_foldl_nodup (ts : List String) (v : List String) (c : Nat)
    (hv : v.Nodup) : (ts.foldl addTokensStep (v, c)).1.Nodup := by
  induction ts generalizing v c with
  | nil => simpa
  | cons s ts ih =>
    by_cases hmem : s ∈ v
    · simpa [List.foldl_cons, addTokensStep, hmem] using ih v c hv
    · rw [List.foldl_cons]
      simp only [addTokensStep, hmem, if_false]
      exact ih (v ++ [s]) (c + 1) (by simp [List.nodup_append, hv, hmem])

/-- C4: addTokens inserts exactly the tokens not already present (the
extended vocabulary size is the old size plus the returned count, a
token is in the extended vocabulary exactly when it was in the old one
or in the list, and no duplicate entries appear); in particular, adding
["x"] twice for a fresh token x returns 1 and then 0, and the vocabulary
size increases by exactly 1 over the two calls. -/
theorem addTokens_inserts_new_and_counts (v ts : List String) (x : String)
    (hx : x ∉ v) (hv : v.Nodup) :
    (addTokens v ts).1.length = v.length + (addTokens v ts).2 ∧
    (∀ t, t ∈ (addTokens v ts).1 ↔ (t ∈ v ∨ t ∈ ts)) ∧
    (addTokens v ts).1.Nodup ∧
    (addTokens v [x]).2 = 1 ∧
    (addTokens (addTokens v [x]).1 [x]).2 = 0 ∧
    getVocabSize (addTokens (addTokens v [x]).1 [x]).1 = getVocabSize v + 1 := by
  have hone : addTokens v [x] = (v ++ [x], 1) := by
    simp [addTokens, addTokensStep, hx]
  refine ⟨?_, ?_, ?_, ?_, ?_, ?_⟩
  · simpa using addTokensStep_foldl_length ts v 0
  · intro t
    exact addTokensStep_foldl_mem ts v 0 t
  · exact addTokensStep_foldl_nodup ts v 0 hv
  · rw [hone]
  · rw [hone]
    simp [addTokens, addTokensStep]
  · rw [hone]
    simp [addTokens, addTokensStep, getVocabSize]

/-- C4 witness: starting from the empty vocabulary, adding ["x"] twice
returns 1 and then 0 and the vocabulary size grows from 0 to 1. -/
theorem addTokens_inserts_new_and_counts_witness :
    ("x" ∉ ([] : List String)) ∧ ([] : List String).Nodup ∧
    (addTokens [] ["x"]).2 = 1 ∧
    (addTokens (addTokens [] ["x"]).1 ["x"]).2 = 0 ∧
    getVocabSize (addTokens (addTokens [] ["x"]).1 ["x"]).1 =
      getVocabSize [] + 1 := by
  have h := addTokens_inserts_new_and_counts [] ["x", "y"] "x"
    (by simp) (by simp)
  exact ⟨by simp, by simp, h.2.2.2.1, h.2.2.2.2.1, h.2.2.2.2.2⟩

/-- C5: a stage setter fails busy whenever the tokenizer has running
tasks; with no running tasks it fails alreadyBound whenever the supplied
stage instance is owned by a different tokenizer, and succeeds when the
instance is unowned or already owned by this tokenizer; a previously
busy call succeeds once all outstanding tasks have completed; and the
stage getters always return a value, never an error. -/
theorem setStage_conditions (w : TokenizerWorld) (tok : Nat) (sl : StageSlot)
    (stage : Nat) :
    (w.runningTasks tok > 0 →
      setStage w tok sl stage = Except.error SetStageError.busy) ∧
    (∀ owner, w.runningTasks tok = 0 → w.stageOwner stage = some owner →
      owner ≠ tok →
      setStage w tok sl stage = Except.error SetStageError.alreadyBound) ∧
    (w.runningTasks tok = 0 →
      (w.stageOwner stage = none ∨ w.stageOwner stage = some tok) →
      setStage w tok sl stage = Except.ok (w.bindStage tok sl stage)) ∧
    (w.runningTasks tok > 0 →
      (w.stageOwner stage = none ∨ w.stageOwner stage = some tok) →
      setStage (completeAllTasks w tok) tok sl stage =
        Except.ok ((completeAllTasks w tok).bindStage tok sl stage)) ∧
    (∃ v, getStage w tok sl = Except.ok v) := by
  refine ⟨?_, ?_, ?_, ?_, ⟨w.boundStage tok sl, rfl⟩⟩
  · intro h
    simp [setStage, h]
  · intro owner h0 hso hne
    simp [setStage, h0, hso, hne]
  · rintro h0 (hso | hso) <;> simp [setStage, h0, hso]
  · rintro _ (hso | hso) <;> simp [setStage, completeAllTasks, hso]

/-- C5 witness: in a world with a running task the setter fails busy and
succeeds after the tasks complete; in an idle world where the stage
instance belongs to tokenizer 1, tokenizer 0 gets alreadyBound. -/
theorem setStage_conditions_witness :
    busyWorld.runningTasks 0 > 0 ∧
    setStage busyWorld 0 StageSlot.model 5 = Except.error SetStageError.busy ∧
    setStage (completeAllTasks busyWorld 0) 0 StageSlot.model 5 =
      Except.ok ((completeAllTasks busyWorld 0).bindStage 0 StageSlot.model 5) ∧
    boundWorld.runningTasks 0 = 0 ∧
    boundWorld.stageOwner 5 = some 1 ∧
    setStage boundWorld 0 StageSlot.model 5 =
      Except.error SetStageError.alreadyBound := by
  have hb := setStage_conditions busyWorld 0 StageSlot.model 5
  have ho := setStage_conditions boundWorld 0 StageSlot.model 5
  have hrun : busyWorld.runningTasks 0 > 0 := by decide
  exact ⟨hrun, hb.1 hrun, hb.2.2.2.1 hrun (Or.inl rfl), rfl, rfl,
    ho.2.1 1 rfl rfl (by decide)⟩

/-- C6: encodeBatch applies encode to each element (a bare string as a
single sequence, a 2-tuple as a pair): a successful batch has one output
per input, in input order, with output i the encoding of input i; and if
encoding any element fails, the whole call fails with an error and no
partial results are returned. -/
theorem encodeBatch_elementwise_and_atomic
    (enc : String → Option String → Except String Encoding)
    (inputs : List EncodeInput) :
    (∀ outs, encodeBatch enc inputs = Except.ok outs →
      outs.length = inputs.length ∧
      ∀ i, (hi : i < inputs.length) → (ho : i < outs.length) →
        encodeOne enc (inputs.get ⟨i, hi⟩) = Except.ok (outs.get ⟨i, ho⟩)) ∧
    ((∃ x ∈ inputs, ∃ msg, encodeOne enc x = Except.error msg) →
      ∃ msg, encodeBatch enc inputs = Except.error msg) := by
  induction inputs with
  | nil =>
    constructor
    · intro outs houts
      simp only [encodeBatch] at houts
      cases houts
      exact ⟨rfl, fun i hi => absurd hi (by simp)⟩
    · rintro ⟨x, hx, -⟩
      exact absurd hx (by simp)
  | cons x xs ih =>
    constructor
    · intro outs houts
      cases hx : encodeOne enc x with
      | error msg =>
        rw [encodeBatch, hx] at houts
        exact absurd houts (by simp)
      | ok e =>
        rw [encodeBatch, hx] at houts
        cases hxs : encodeBatch enc xs with
        | error msg =>
          rw [hxs] at houts
          exact absurd houts (by simp)
        | ok es =>
          rw [hxs] at houts
          have heq : e :: es = outs := by
            simpa using houts
          subst heq
          obtain ⟨hlen, hget⟩ := ih.1 es hxs
          refine ⟨by simpa using hlen, ?_⟩
          intro i hi ho
          cases i with
          | zero => simpa using hx
          | succ n =>
            simpa using hget n (by simpa using hi) (by simpa using ho)
    · rintro ⟨y, hy, msg, hmsg⟩
      rcases List.mem_cons.mp hy with rfl | hy2
      · exact ⟨msg, by rw [encodeBatch, hmsg]⟩
      · cases hx : encodeOne enc x with
        | error m => exact ⟨m, by rw [encodeBatch, hx]⟩
        | ok e =>
          obtain ⟨m2, hm2⟩ := ih.2 ⟨y, hy2, msg, hmsg⟩
          exact ⟨m2, by rw [encodeBatch, hx, hm2]⟩

/-- C6 witness: a two-element batch (one single sequence, one pair)
succeeds with one encoding per input, and a batch containing the failing
sequence "bad" fails as a whole. -/
theorem encodeBatch_elementwise_and_atomic_witness :
    encodeBatch encWitness [EncodeInput.single "a", EncodeInput.pair "b" "c"] =
      Except.ok [exampleEncoding, exampleEncoding] ∧
    ([exampleEncoding, exampleEncoding] : List Encoding).length = 2 ∧
    (∃ msg, encodeBatch encWitness
      [EncodeInput.single "bad", EncodeInput.single "a"] =
        Except.error msg) := by
  have hok : encodeBatch encWitness
      [EncodeInput.single "a", EncodeInput.pair "b" "c"] =
      Except.ok [exampleEncoding, exampleEncoding] := rfl
  have hlen := ((encodeBatch_elementwise_and_atomic encWitness
    [EncodeInput.single "a", EncodeInput.pair "b" "c"]).1 _ hok).1
  have hfail := (encodeBatch_elementwise_and_atomic encWitness
    [EncodeInput.single "bad", EncodeInput.single "a"]).2
    ⟨EncodeInput.single "bad", by simp, "boom", rfl⟩
  exact ⟨hok, hlen.trans (by simp), hfail⟩

theorem EncodingData.le_currentLength_pad (d : EncodingData) (len : Nat)
    (opts : PaddingOptions) : len ≤ (d.pad len opts).currentLength := by
  obtain ⟨dir, pid, ptid, ptok⟩ := opts
  unfold EncodingData.pad
  split
  · assumption
  · rename_i h
    simp only [EncodingData.currentLength] at h ⊢
    cases dir <;>
      simp only [List.length_append, List.length_replicate] <;> omega

/-- C7: padding an Encoding whose current length is at least the requested
length changes nothing, and consequently padding twice at the same
length leaves the Encoding exactly as padding once (idempotence). -/
theorem pad_noop_and_idempotent (e : Encoding) (len : Nat)
    (opts : PaddingOptions) :
    (len ≤ e.primary.currentLength → e.pad len opts = e) ∧
    (e.pad len opts).pad len opts = e.pad len opts := by
  have hno : ∀ d : EncodingData, len ≤ d.currentLength → d.pad len opts = d := by
    intro d h
    unfold EncodingData.pad
    simp [h]
  constructor
  · intro h
    show Encoding.mk (e.primary.pad len opts) e.overflowing = e
    rw [hno e.primary h]
  · show Encoding.mk ((e.primary.pad len opts).pad len opts) (e.pad len opts).overflowing =
      e.pad len opts
    rw [hno _ (EncodingData.le_currentLength_pad e.primary len opts)]
    rfl

/-- C7 witness: the example encoding has length 4, so padding it at length
2 is a no-op. -/
theorem pad_noop_and_idempotent_witness :
    2 ≤ exampleEncoding.primary.currentLength ∧
      exampleEncoding.pad 2 {} = exampleEncoding :=
  ⟨by decide, (pad_noop_and_idempotent exampleEncoding 2 {}).1 (by decide)⟩

/-- C8: a pad call never touches the overflow chain: the overflowing list
after the call is exactly the overflowing list before it, every segment
content included, since padding targets only the primary Encoding. -/
theorem pad_leaves_overflowing_unchanged (e : Encoding) (len : Nat)
    (opts : PaddingOptions) : (e.pad len opts).overflowing = e.overflowing :=
  rfl

/-- C9 counterexample: with a vocabulary containing only "[CLS]" (so the
required special token "[SEP]" is absent) and a vocab file configured,
the tokenizer construction itself fails with the plain construction
error thrown by fromOptions; no tokenizer with such a PostProcessor is
ever produced and no encode call with an InvalidInput condition ever
happens. -/
theorem fromOptions_missing_special_token_counterexample :
    BertWordPieceTokenizer.fromOptions
        (fun t => if t = "[CLS]" then some 1 else none)
        { hasVocabFile := true } =
      Except.error "sepToken not found in the vocabulary" :=
  rfl

/-- C9 (amended): when the PostProcessor would require special tokens that
are absent from the vocabulary, the failure surfaces at tokenizer
construction: fromOptions throws the sepToken or clsToken
not-found-in-the-vocabulary error before any PostProcessor is
configured; when both tokens are present, construction succeeds and the
PostProcessor is built from the already resolved token ids, so encode
never performs this vocabulary check. -/
theorem fromOptions_missing_special_token_fails_at_construction
    (tokenToId : String → Option Nat) (opts : BertWordPieceOptions)
    (hv : opts.hasVocabFile = true) (ha : opts.addSpecialTokens = true) :
    (tokenToId opts.sepToken = none →
      BertWordPieceTokenizer.fromOptions tokenToId opts =
        Except.error "sepToken not found in the vocabulary") ∧
    (∀ sepId, tokenToId opts.sepToken = some sepId →
      tokenToId opts.clsToken = none →
      BertWordPieceTokenizer.fromOptions tokenToId opts =
        Except.error "clsToken not found in the vocabulary") ∧
    (∀ sepId clsId, tokenToId opts.sepToken = some sepId →
      tokenToId opts.clsToken = some clsId →
      BertWordPieceTokenizer.fromOptions tokenToId opts =
        Except.ok
          { postProcessor :=
              some ((opts.sepToken, sepId), (opts.clsToken, clsId)) }) := by
  refine ⟨?_, ?_, ?_⟩
  · intro hsep
    simp [BertWordPieceTokenizer.fromOptions, hv, ha, hsep]
  · intro sepId hsep hcls
    simp [BertWordPieceTokenizer.fromOptions, hv, ha, hsep, hcls]
  · intro sepId clsId hsep hcls
    simp [BertWordPieceTokenizer.fromOptions, hv, ha, hsep, hcls]

/-- C9 witness: with an empty vocabulary lookup the construction fails
with the sepToken error. -/
theorem fromOptions_missing_special_token_fails_at_construction_witness :
    ({ hasVocabFile := true } : BertWordPieceOptions).hasVocabFile = true ∧
    ({ hasVocabFile := true } : BertWordPieceOptions).addSpecialTokens = true ∧
    BertWordPieceTokenizer.fromOptions (fun _ => none) { hasVocabFile := true } =
      Except.error "sepToken not found in the vocabulary" :=
  ⟨rfl, rfl,
    (fromOptions_missing_special_token_fails_at_construction (fun _ => none)
      { hasVocabFile := true } rfl rfl).1 rfl⟩

/-- C10: after a pad or truncate call on the wrapper, every cached view is
cleared, and every getter read on the mutated wrapper returns the value
recomputed from the raw encoding in its post-mutation state (which is
the raw pad or truncate of the pre-mutation raw encoding), never a
stale pre-mutation value. -/
theorem mutators_invalidate_cached_views (w : CachedEncoding) (len stride : Nat)
    (opts : PaddingOptions) :
    ((w.pad len opts).raw = w.raw.pad len opts ∧
     (w.pad len opts).cachedAttentionMask = none ∧
     (w.pad len opts).cachedIds = none ∧
     (w.pad len opts).cachedLength = none ∧
     (w.pad len opts).cachedOffsets = none ∧
     (w.pad len opts).cachedOverflowing = none ∧
     (w.pad len opts).cachedSpecialTokensMask = none ∧
     (w.pad len opts).cachedTokens = none ∧
     (w.pad len opts).cachedTypeIds = none ∧
     (w.pad len opts).attentionMask.1 = (w.raw.pad len opts).getAttentionMask ∧
     (w.pad len opts).ids.1 = (w.raw.pad len opts).getIds ∧
     (w.pad len opts).length.1 = (w.raw.pad len opts).getLength ∧
     (w.pad len opts).offsets.1 = (w.raw.pad len opts).getOffsets ∧
     (w.pad len opts).overflowing.1 = (w.raw.pad len opts).getOverflowing ∧
     (w.pad len opts).specialTokensMask.1 =
       (w.raw.pad len opts).getSpecialTokensMask ∧
     (w.pad len opts).tokens.1 = (w.raw.pad len opts).getTokens ∧
     (w.pad len opts).typeIds.1 = (w.raw.pad len opts).getTypeIds) ∧
    ((w.truncate len stride).raw = w.raw.truncate len stride ∧
     (w.truncate len stride).cachedAttentionMask = none ∧
     (w.truncate len stride).cachedIds = none ∧
     (w.truncate len stride).cachedLength = none ∧
     (w.truncate len stride).cachedOffsets = none ∧
     (w.truncate len stride).cachedOverflowing = none ∧
     (w.truncate len stride).cachedSpecialTokensMask = none ∧
     (w.truncate len stride).cachedTokens = none ∧
     (w.truncate len stride).cachedTypeIds = none ∧
     (w.truncate len stride).attentionMask.1 =
       (w.raw.truncate len stride).getAttentionMask ∧
     (w.truncate len stride).ids.1 = (w.raw.truncate len stride).getIds ∧
     (w.truncate len stride).length.1 = (w.raw.truncate len stride).getLength ∧
     (w.truncate len stride).offsets.1 = (w.raw.truncate len stride).getOffsets ∧
     (w.truncate len stride).overflowing.1 =
       (w.raw.truncate len stride).getOverflowing ∧
     (w.truncate len stride).specialTokensMask.1 =
       (w.raw.truncate len stride).getSpecialTokensMask ∧
     (w.truncate len stride).tokens.1 = (w.raw.truncate len stride).getTokens ∧
     (w.truncate len stride).typeIds.1 =
       (w.raw.truncate len stride).getTypeIds) :=
  ⟨⟨rfl, rfl, rfl, rfl, rfl, rfl, rfl, rfl, rfl, rfl, rfl, rfl, rfl, rfl, rfl,
    rfl, rfl⟩,
   ⟨rfl, rfl, rfl, rfl, rfl, rfl, rfl, rfl, rfl, rfl, rfl, rfl, rfl, rfl, rfl,
    rfl, rfl⟩⟩

end Tokenizers
